import Mathlib

/-!
Verification of the counter service (`content/microservices/counter-service/app.py`).

The service is a single HTTP layer over an external key-value store (Redis).
We embed the store as the state of the single key `'counter'` (Redis stores
string values; `decode_responses=True` makes the client return them as
strings), a connection that either works or fails every call with a fixed
message, and each Flask handler as a pure function from connection and store
state to a `(body, status)` response paired with the new store state.
-/

/-- State of the external store: the string value held under the fixed key
`'counter'`, or `none` when the key has never been set. -/
structure Store where
  counter : Option String
  deriving DecidableEq, Repr

/-- Connection condition for one store call: `none` means the store is
reachable and the call succeeds; `some m` means the call raises a
store-layer exception whose `str(e)` is `m`. -/
abbrev Conn := Option String

/-- Decimal digits of a natural number, most significant first
(the representation Redis keeps for integer values). -/
def natToDigits (n : Nat) : List Char :=
  if h : n < 10 then [Char.ofNat (48 + n)]
  else natToDigits (n / 10) ++ [Char.ofNat (48 + n % 10)]
  termination_by n
  decreasing_by exact Nat.div_lt_self (by omega) (by omega)

/-- Decimal string representation of an integer, as the store serialises
the counter value after `INCR` or `SET`. -/
def intToString (n : Int) : String :=
  if n < 0 then String.mk ('-' :: natToDigits (-n).toNat)
  else String.mk (natToDigits n.toNat)

/-- Left-to-right accumulation of decimal digits; `none` on the first
non-digit character. -/
def parseDigits : List Char → Nat → Option Nat
  | [], acc => some acc
  | c :: cs, acc =>
      if c.isDigit then parseDigits cs (acc * 10 + (c.toNat - 48))
      else none

/-- Parse an optionally signed decimal integer.  This models both Python's
`int(s)` (as in `int(count)` of `get_count`) and the store's integer parse
performed by `INCR`; surrounding whitespace and digit underscores, which
Python would additionally accept, are not modelled (no claim depends on
them, and the store never writes them). -/
def parseDecInt (s : String) : Option Int :=
  match s.data with
  | [] => none
  | c :: cs =>
      if c = '-' then
        (if cs = [] then none else (parseDigits cs 0).map (fun n => -(n : Int)))
      else if c = '+' then
        (if cs = [] then none else (parseDigits cs 0).map (fun n => (n : Int)))
      else (parseDigits (c :: cs) 0).map (fun n => (n : Int))

/-- Modelled from the spec: the store's atomic increment (`INCR counter`),
which is an external collaborator, not code under `src/`: it creates the
key at 0 if absent, adds one, stores the decimal representation and
returns the post-increment value; it fails when the stored value is not
an integer. -/
def redisIncr (conn : Conn) (st : Store) : Except String Int × Store :=
  match conn with
  | some m => (.error m, st)
  | none =>
      match st.counter with
      | none => (.ok 1, ⟨some (intToString 1)⟩)
      | some s =>
          match parseDecInt s with
          | none => (.error "value is not an integer or out of range", st)
          | some n => (.ok (n + 1), ⟨some (intToString (n + 1))⟩)

/-- Modelled from the spec: the store's get (`GET counter`), an external
collaborator: returns the stored string, or `none` when the key is
absent; never modifies the store. -/
def redisGet (conn : Conn) (st : Store) : Except String (Option String) × Store :=
  match conn with
  | some m => (.error m, st)
  | none => (.ok st.counter, st)

/-- Modelled from the spec: the store's set (`SET counter v`), an external
collaborator: stores the decimal representation of `v`. -/
def redisSet (conn : Conn) (v : Int) (st : Store) : Except String Unit × Store :=
  match conn with
  | some m => (.error m, st)
  | none => (.ok (), ⟨some (intToString v)⟩)

/-- Modelled from the spec: the store's liveness probe (`PING`), an external
collaborator: succeeds exactly when the store is reachable and never
modifies it. -/
def redisPing (conn : Conn) (st : Store) : Except String Unit × Store :=
  match conn with
  | some m => (.error m, st)
  | none => (.ok (), st)

/-- JSON bodies the four handlers can produce. -/
inductive Body where
  /-- `{"count": n}` -/
  | countB (n : Int)
  /-- `{"error": msg}` -/
  | errorB (msg : String)
  /-- `{"status": "healthy"}` -/
  | healthyB
  /-- `{"status": "unhealthy", "error": msg}` -/
  | unhealthyB (msg : String)
  deriving DecidableEq, Repr

/-- An HTTP response: JSON body and status code. -/
abbrev Response := Body × Nat

/-- Message of Python's `ValueError` raised by `int(s)` on a non-numeric
string (quoting of `s` inside the message is not reproduced). -/
def intValueError (s : String) : String :=
  "invalid literal for int() with base 10: " ++ s

/-- Handler for `POST /increment` (app.py lines 12-18): atomically
increments the counter and returns the new value; any store exception is
caught and reported as a 500 with `str(e)`. -/
def increment (conn : Conn) (st : Store) : Response × Store :=
  match redisIncr conn st with
  | (.ok n, st') => ((.countB n, 200), st')
  | (.error e, st') => ((.errorB e, 500), st')

/-- Handler for `GET /count` (app.py lines 20-28): reads the counter,
treats an absent key as 0, converts the stored string with `int(...)`;
any exception in the block, including the conversion failure, is caught
and reported as a 500. -/
def get_count (conn : Conn) (st : Store) : Response × Store :=
  match redisGet conn st with
  | (.error e, st') => ((.errorB e, 500), st')
  | (.ok v, st') =>
      match v with
      | none => ((.countB 0, 200), st')
      | some s =>
          match parseDecInt s with
          | some n => ((.countB n, 200), st')
          | none => ((.errorB (intValueError s), 500), st')

/-- Handler for `POST /reset` (app.py lines 30-36): sets the counter key
to 0 and returns `{"count": 0}`; any store exception is caught and
reported as a 500. -/
def reset (conn : Conn) (st : Store) : Response × Store :=
  match redisSet conn 0 st with
  | (.ok _, st') => ((.countB 0, 200), st')
  | (.error e, st') => ((.errorB e, 500), st')

/-- Handler for `GET /health` (app.py lines 38-44): pings the store;
200/healthy on success, 503/unhealthy with `str(e)` otherwise. -/
def health (conn : Conn) (st : Store) : Response × Store :=
  match redisPing conn st with
  | (.ok _, st') => ((.healthyB, 200), st')
  | (.error e, st') => ((.unhealthyB e, 503), st')

/-- Configuration lookup `os.environ.get(k, d)` for a string default. -/
def envGetStr (env : String → Option String) (k d : String) : String :=
  (env k).getD d

/-- `redis_host = os.environ.get('REDIS_HOST', 'localhost')` (app.py line 8). -/
def redis_host (env : String → Option String) : String :=
  envGetStr env "REDIS_HOST" "localhost"

/-- `redis_port = int(os.environ.get('REDIS_PORT', 6379))` (app.py line 9):
`int` of the integer default is the default itself; of a set variable it
parses the string (`none` models the raised `ValueError`). -/
def redis_port (env : String → Option String) : Option Int :=
  match env "REDIS_PORT" with
  | none => some 6379
  | some s => parseDecInt s

/-- `port = int(os.environ.get('PORT', 5000))` (app.py line 47). -/
def listen_port (env : String → Option String) : Option Int :=
  match env "PORT" with
  | none => some 5000
  | some s => parseDecInt s

/-! ### Decimal representation: basic lemmas -/

lemma natToDigits_small {n : Nat} (h : n < 10) :
    natToDigits n = [Char.ofNat (48 + n)] := by
  rw [natToDigits]; simp [h]

lemma natToDigits_large {n : Nat} (h : ¬ n < 10) :
    natToDigits n = natToDigits (n / 10) ++ [Char.ofNat (48 + n % 10)] := by
  rw [natToDigits]; simp [h]

lemma natToDigits_ne_nil (n : Nat) : natToDigits n ≠ [] := by
  by_cases h : n < 10
  · rw [natToDigits_small h]; simp
  · rw [natToDigits_large h]; simp

lemma digitChar_isDigit {d : Nat} (h : d < 10) :
    (Char.ofNat (48 + d)).isDigit = true := by
  interval_cases d <;> decide

lemma digitChar_toNat {d : Nat} (h : d < 10) :
    (Char.ofNat (48 + d)).toNat = 48 + d := by
  interval_cases d <;> decide

lemma natToDigits_all_isDigit (n : Nat) :
    ∀ c ∈ natToDigits n, c.isDigit = true := by
  induction n using Nat.strong_induction_on with
  | _ n ih =>
    intro c hc
    by_cases h : n < 10
    · rw [natToDigits_small h] at hc
      simp at hc
      subst hc
      exact digitChar_isDigit h
    · rw [natToDigits_large h] at hc
      rcases List.mem_append.mp hc with h1 | h2
      · exact ih (n / 10) (Nat.div_lt_self (by omega) (by omega)) c h1
      · simp at h2
        subst h2
        exact digitChar_isDigit (Nat.mod_lt _ (by omega))

lemma parseDigits_append (xs ys : List Char) (acc : Nat) :
    parseDigits (xs ++ ys) acc =
      match parseDigits xs acc with
      | none => none
      | some m => parseDigits ys m := by
  induction xs generalizing acc with
  | nil => simp [parseDigits]
  | cons c cs ih =>
    by_cases h : c.isDigit
    · simp [parseDigits, h, ih]
    · simp [parseDigits, h]

lemma parseDigits_natToDigits (n acc : Nat) :
    parseDigits (natToDigits n) acc =
      some (acc * 10 ^ (natToDigits n).length + n) := by
  induction n using Nat.strong_induction_on generalizing acc with
  | _ n ih =>
    by_cases h : n < 10
    · rw [natToDigits_small h]
      simp [parseDigits, digitChar_isDigit h, digitChar_toNat h]
    · rw [natToDigits_large h, parseDigits_append]
      rw [ih (n / 10) (Nat.div_lt_self (by omega) (by omega)) acc]
      have hm : n % 10 < 10 := Nat.mod_lt _ (by omega)
      simp only [parseDigits, digitChar_isDigit hm, digitChar_toNat hm,
        if_true, List.length_append, List.length_cons, List.length_nil]
      congr 1
      have := Nat.div_add_mod n 10
      ring_nf
      omega

/-- Shorthand: the stored representation of a natural counter value. -/
def natStr (n : Nat) : String := intToString (n : Int)

lemma natStr_eq (n : Nat) : natStr n = String.mk (natToDigits n) := by
  unfold natStr intToString
  have h0 : ¬ ((n : Int) < 0) := by omega
  simp [h0]

lemma parseDecInt_natStr (n : Nat) : parseDecInt (natStr n) = some (n : Int) := by
  rw [natStr_eq]
  obtain ⟨c, cs, hc⟩ : ∃ c cs, natToDigits n = c :: cs := by
    cases h : natToDigits n with
    | nil => exact absurd h (natToDigits_ne_nil n)
    | cons c cs => exact ⟨c, cs, rfl⟩
  have hdig : c.isDigit = true := natToDigits_all_isDigit n c (by rw [hc]; simp)
  have hminus : c ≠ '-' := by intro h; rw [h] at hdig; simp [Char.isDigit] at hdig
  have hplus : c ≠ '+' := by intro h; rw [h] at hdig; simp [Char.isDigit] at hdig
  have hparse : parseDigits (natToDigits n) 0 = some n := by
    rw [parseDigits_natToDigits]; simp
  unfold parseDecInt
  simp only [String.data]
  rw [hc] at hparse ⊢
  simp [hminus, hplus, hparse]

lemma natStr_succ (m : Nat) : intToString ((m : Int) + 1) = natStr (m + 1) := by
  unfold natStr
  have h1 : (m : Int) + 1 = ((m + 1 : Nat) : Int) := by omega
  rw [h1]

lemma increment_natStr (m : Nat) :
    increment none ⟨some (natStr m)⟩ =
      ((.countB ((m : Int) + 1), 200), ⟨some (natStr (m + 1))⟩) := by
  unfold increment redisIncr
  simp [parseDecInt_natStr, natStr_succ]

lemma get_count_natStr (m : Nat) :
    get_count none ⟨some (natStr m)⟩ = ((.countB (m : Int), 200), ⟨some (natStr m)⟩) := by
  unfold get_count redisGet
  simp [parseDecInt_natStr]

/-- The store state after `k` consecutive successful `POST /increment`
requests. -/
def incrN : Nat → Store → Store
  | 0, st => st
  | k + 1, st => incrN k (increment none st).2

lemma incrN_natStr (k m : Nat) :
    incrN k ⟨some (natStr m)⟩ = ⟨some (natStr (m + k))⟩ := by
  induction k generalizing m with
  | zero => simp [incrN]
  | succ k ih =>
      rw [incrN, increment_natStr, ih]
      have h1 : m + 1 + k = m + (k + 1) := by omega
      rw [h1]

/-- The counter values returned by `k` consecutive successful
`POST /increment` requests, in request order, paired with the final
store state (`none` would mark a response that carried no count). -/
def incrRunList : Nat → Store → List (Option Int) × Store
  | 0, st => ([], st)
  | k + 1, st =>
      let r := increment none st
      let rest := incrRunList k r.2
      ((match r.1.1 with
        | .countB n => some n
        | _ => none) :: rest.1, rest.2)

lemma incrRunList_natStr (k m : Nat) :
    incrRunList k ⟨some (natStr m)⟩ =
      ((List.range k).map (fun i => some ((m + i + 1 : Nat) : Int)),
       ⟨some (natStr (m + k))⟩) := by
  induction k generalizing m with
  | zero => simp [incrRunList]
  | succ k ih =>
      rw [incrRunList]
      simp only [increment_natStr, ih]
      rw [List.range_succ_eq_map, Prod.mk.injEq]
      refine ⟨?_, ?_⟩
      · simp only [List.map_cons, List.map_map, List.cons.injEq]
        refine ⟨by push_cast; ring_nf, ?_⟩
        apply List.map_congr_left
        intro i _
        simp only [Function.comp_apply]
        exact congrArg (fun t : Nat => some ((t : Int)))
          (show m + 1 + i + 1 = m + (i + 1) + 1 by omega)
      · have h1 : m + 1 + k = m + (k + 1) := by omega
        rw [h1]

/-- One of the four HTTP operations the service exposes. -/
inductive Op where
  | incrO | getO | resetO | healthO
  deriving DecidableEq, Repr

/-- Dispatch one request to its handler. -/
def execOp : Op → Conn → Store → Response × Store
  | .incrO, conn, st => increment conn st
  | .getO, conn, st => get_count conn st
  | .resetO, conn, st => reset conn st
  | .healthO, conn, st => health conn st

/-- Run a sequence of requests, each with its own connection condition
(the store may come and go between requests), threading the store state. -/
def runOps (ops : List (Op × Conn)) (st : Store) : Store :=
  ops.foldl (fun s oc => (execOp oc.1 oc.2 s).2) st

/-- The data-model invariant: the counter key is unset, or holds the
decimal representation of a non-negative integer. -/
def goodCounter (st : Store) : Prop :=
  st.counter = none ∨ ∃ n : Nat, st.counter = some (natStr n)

lemma execOp_goodCounter (op : Op) (conn : Conn) (st : Store)
    (h : goodCounter st) : goodCounter (execOp op conn st).2 := by
  cases conn with
  | some m =>
      cases op <;>
        simpa [execOp, increment, get_count, reset, health,
          redisIncr, redisGet, redisSet, redisPing] using h
  | none =>
      rcases h with h | ⟨n, h⟩
      · have hst : st = ⟨none⟩ := by cases st; simp_all
        subst hst
        cases op with
        | incrO =>
            exact Or.inr ⟨1, by simp [execOp, increment, redisIncr, natStr]⟩
        | getO => exact Or.inl (by simp [execOp, get_count, redisGet])
        | resetO => exact Or.inr ⟨0, by simp [execOp, reset, redisSet, natStr]⟩
        | healthO => exact Or.inl (by simp [execOp, health, redisPing])
      · have hst : st = ⟨some (natStr n)⟩ := by cases st; simp_all
        subst hst
        cases op with
        | incrO => exact Or.inr ⟨n + 1, by simp [execOp, increment_natStr]⟩
        | getO => exact Or.inr ⟨n, by simp [execOp, get_count_natStr]⟩
        | resetO => exact Or.inr ⟨0, by simp [execOp, reset, redisSet, natStr]⟩
        | healthO => exact Or.inr ⟨n, by simp [execOp, health, redisPing]⟩

lemma runOps_goodCounter (ops : List (Op × Conn)) (st : Store)
    (h : goodCounter st) : goodCounter (runOps ops st) := by
  induction ops generalizing st with
  | nil => simpa [runOps] using h
  | cons oc rest ih =>
      simp only [runOps, List.foldl_cons]
      exact ih _ (execOp_goodCounter oc.1 oc.2 st h)

lemma natStr_zero : natStr 0 = "0" := by
  rw [natStr_eq, natToDigits_small (by omega)]

/-! ### Claims -/

/-- C1: for every N, starting from a store state in which the counter has
just been reset (value 0), N successful increments followed by
`GET /count` return `{"count": N}` with status 200. -/
theorem counter_after_n_increments (N : Nat) (st : Store) :
    (get_count none (incrN N (reset none st).2)).1 = (.countB (N : Int), 200) := by
  have h0 : (reset none st).2 = ⟨some (natStr 0)⟩ := by
    simp [reset, redisSet, natStr]
  rw [h0, incrN_natStr]
  simp [get_count_natStr]

/-- C2: when the counter key has never been set, `GET /count` treats the
absent key as 0 and returns `{"count": 0}` with status 200 (and leaves
the key unset). -/
theorem count_when_key_unset :
    get_count none ⟨none⟩ = ((.countB 0, 200), ⟨none⟩) := by
  simp [get_count, redisGet]

/-- C3: from every prior store state, `POST /reset` sets the counter key
to 0, returns `{"count": 0}` with status 200, and a subsequent
`GET /count` returns `{"count": 0}` with status 200. -/
theorem reset_forces_zero (st : Store) :
    reset none st = ((.countB 0, 200), ⟨some "0"⟩) ∧
      get_count none (reset none st).2 = ((.countB 0, 200), ⟨some "0"⟩) := by
  have h0 : intToString 0 = "0" := by
    have h1 : natStr 0 = intToString 0 := by simp [natStr]
    rw [← h1, natStr_zero]
  constructor
  · simp [reset, redisSet, h0]
  · simp [reset, redisSet, h0, get_count, redisGet, parseDecInt, parseDigits]

/-- C4: `GET /health` returns `{"status": "healthy"}`/200 exactly when the
store probe succeeds and `{"status": "unhealthy", "error": msg}`/503
exactly when it fails; no other status code is possible. -/
theorem health_status_characterisation (conn : Conn) (st : Store) :
    ((health conn st).1 = (.healthyB, 200) ∧ conn = none ∨
      ∃ m, conn = some m ∧ (health conn st).1 = (.unhealthyB m, 503)) ∧
    ((health conn st).1.2 = 200 ↔ conn = none) ∧
    ((health conn st).1.2 = 503 ↔ ¬ conn = none) ∧
    ((health conn st).1.2 = 200 ∨ (health conn st).1.2 = 503) := by
  cases conn <;> simp [health, redisPing]

/-- C5: every store failure in `POST /increment`, `GET /count` or
`POST /reset` yields status 500 with an `error` field carrying the
(non-empty) message of the underlying failure; the handler returns
normally with the store untouched, so no failure escapes or kills the
process. -/
theorem store_failure_reported_500 (m : String) (st : Store) (h : m ≠ "") :
    increment (some m) st = ((.errorB m, 500), st) ∧
    get_count (some m) st = ((.errorB m, 500), st) ∧
    reset (some m) st = ((.errorB m, 500), st) ∧
    m.length ≠ 0 := by
  refine ⟨?_, ?_, ?_, ?_⟩
  · simp [increment, redisIncr]
  · simp [get_count, redisGet]
  · simp [reset, redisSet]
  · intro hl
    apply h
    cases m with
    | mk l =>
        have hdata : l = [] := by
          simpa [String.length] using hl
        rw [hdata]

/-- Witness for C5 at the concrete failure message `"boom"`. -/
theorem store_failure_reported_500_witness :
    ("boom" : String) ≠ "" ∧
      (increment (some "boom") ⟨none⟩ = ((.errorB "boom", 500), ⟨none⟩) ∧
       get_count (some "boom") ⟨none⟩ = ((.errorB "boom", 500), ⟨none⟩) ∧
       reset (some "boom") ⟨none⟩ = ((.errorB "boom", 500), ⟨none⟩) ∧
       ("boom" : String).length ≠ 0) :=
  ⟨by decide, store_failure_reported_500 "boom" ⟨none⟩ (by decide)⟩

/-- C6: along every sequence of the four operations (each with the store
reachable or not) starting from an uninitialised store, the counter key is
either still unset or holds the decimal representation of a non-negative
integer; no operation can make it negative. -/
theorem counter_nonnegative_invariant (ops : List (Op × Conn)) :
    (runOps ops ⟨none⟩).counter = none ∨
      ∃ n : Nat, (runOps ops ⟨none⟩).counter = some (natStr n) ∧
        parseDecInt (natStr n) = some (n : Int) ∧ 0 ≤ (n : Int) := by
  rcases runOps_goodCounter ops ⟨none⟩ (Or.inl rfl) with h | ⟨n, h⟩
  · exact Or.inl h
  · exact Or.inr ⟨n, h, parseDecInt_natStr n, by omega⟩

/-- C7: N increments serialised by the store's atomic `INCR`, starting
from a reset counter, return the pairwise-distinct values 1..N and leave
the final count at N. -/
theorem n_increments_distinct_counts (N : Nat) :
    (incrRunList N ⟨some "0"⟩).1.Nodup ∧
    (incrRunList N ⟨some "0"⟩).2 = ⟨some (natStr N)⟩ ∧
    (get_count none (incrRunList N ⟨some "0"⟩).2).1 = (.countB (N : Int), 200) := by
  have h0 : (⟨some "0"⟩ : Store) = ⟨some (natStr 0)⟩ := by rw [natStr_zero]
  rw [h0, incrRunList_natStr]
  refine ⟨?_, ?_, ?_⟩
  · apply List.Nodup.map
    · intro a b hab
      simp only [Option.some.injEq, Nat.cast_inj] at hab
      omega
    · exact List.nodup_range N
  · simp
  · simp [get_count_natStr]

/-- C8: configuration defaults: with `REDIS_HOST`, `REDIS_PORT` and `PORT`
unset in the environment, the store host is `"localhost"`, the store port
6379 and the listen port 5000. -/
theorem config_env_defaults (env : String → Option String)
    (h1 : env "REDIS_HOST" = none) (h2 : env "REDIS_PORT" = none)
    (h3 : env "PORT" = none) :
    redis_host env = "localhost" ∧ redis_port env = some 6379 ∧
      listen_port env = some 5000 := by
  refine ⟨?_, ?_, ?_⟩
  · simp [redis_host, envGetStr, h1]
  · simp [redis_port, h2]
  · simp [listen_port, h3]

/-- Witness for C8 with the empty environment. -/
theorem config_env_defaults_witness :
    ((fun _ : String => (none : Option String)) "REDIS_HOST" = none) ∧
    ((fun _ : String => (none : Option String)) "REDIS_PORT" = none) ∧
    ((fun _ : String => (none : Option String)) "PORT" = none) ∧
      (redis_host (fun _ => none) = "localhost" ∧
        redis_port (fun _ => none) = some 6379 ∧
        listen_port (fun _ => none) = some 5000) :=
  ⟨rfl, rfl, rfl, config_env_defaults (fun _ => none) rfl rfl rfl⟩

/-- C9: `GET /count` and `GET /health` never modify the store, whether the
store call succeeds or fails. -/
theorem get_and_health_preserve_store (conn : Conn) (st : Store) :
    (get_count conn st).2 = st ∧ (health conn st).2 = st := by
  constructor
  · cases conn with
    | some m => rfl
    | none =>
        unfold get_count redisGet
        cases hc : st.counter with
        | none => simp [hc]
        | some s => cases hp : parseDecInt s <;> simp [hc, hp]
  · cases conn <;> rfl

/-- C10: when the counter key holds a string that does not parse as an
integer, `GET /count` catches the conversion failure and returns a
status-500 JSON error (never 200, never a crash). -/
theorem unparseable_value_reported_500 (s : String) (h : parseDecInt s = none) :
    get_count none ⟨some s⟩ = ((.errorB (intValueError s), 500), ⟨some s⟩) ∧
      (get_count none ⟨some s⟩).1.2 ≠ 200 := by
  constructor <;> simp [get_count, redisGet, h]

/-- Witness for C10 at the concrete stored value `"abc"`. -/
theorem unparseable_value_reported_500_witness :
    parseDecInt "abc" = none ∧
      (get_count none ⟨some "abc"⟩ =
          ((.errorB (intValueError "abc"), 500), ⟨some "abc"⟩) ∧
        (get_count none ⟨some "abc"⟩).1.2 ≠ 200) :=
  ⟨by decide, unparseable_value_reported_500 "abc" (by decide)⟩
